import Mathlib

/-!
Shallow embedding of the rules-generation core of the ai-rules-builder
repository: the two generation strategies (`SingleFileRulesStrategy`,
`MultiFileRulesStrategy`) are translated from
`src/services/rules-builder/rules-generation-strategies/*.ts`.
The markdown-builder helpers, the URL codec and the selection store are not
part of the provided sources; they are modelled from the specification, as
marked in their doc comments.

Layers, Stacks and Libraries are TypeScript string enums / string
identifiers in the source; they are embedded as `String`.  The `Record`
groupings `stacksByLayer` / `librariesByStack` are embedded as ordered
association lists, which is what the iteration order of the source relies
on.
-/

/-- One generated output unit, translated from `RulesBuilderTypes.ts`
(`{ markdown, label, fileName }`). -/
structure RulesContent where
  markdown : String
  label : String
  fileName : String
deriving DecidableEq

/-- Modelled from the spec (§4.2): the Layer-level heading emitted before any
Stack content.  The concrete heading text is not in the provided sources; a
markdown H2 heading is used. -/
def layerHeading (layer : String) : String :=
  "## " ++ layer ++ "\n\n"

/-- Modelled from the spec (§4.2): the Stack-level heading emitted before the
Library content.  The concrete heading text is not in the provided sources; a
markdown H3 heading is used. -/
def stackHeading (stack : String) : String :=
  "### " ++ stack ++ "\n\n"

/-- Modelled from the spec (§3, §4.2): a Library's rule content is the
concatenation of its rule fragments, which are external taxonomy data not in
the provided sources; represented abstractly as a function of the Library
identifier. -/
def libraryRules (library : String) : String :=
  "Rules for " ++ library ++ "\n"

/-- Modelled from the spec (§4.2): `renderLibrarySection` from
`markdown-builders` (not in the provided sources) — emits the Layer heading
when `includeLayerHeader`, the Stack heading when `includeStackHeader`, then
the Library content. -/
def renderLibrarySection (layer stack library : String)
    (includeLayerHeader includeStackHeader : Bool) : String :=
  (if includeLayerHeader then layerHeading layer else "") ++
  (if includeStackHeader then stackHeading stack else "") ++
  libraryRules library

/-- Modelled from the spec (§4.2): `createProjectMarkdown` from
`markdown-builders` (not in the provided sources) — the leading
project-summary block. -/
def createProjectMarkdown (name description : String) : String :=
  "AI Rules for " ++ name ++ "\n\n" ++ description ++ "\n\n"

/-- Modelled from the spec (§4.2): `createProjectRulesContent` from
`markdown-builders` (not in the provided sources) — the project-summary
document used by the Multi-File strategy. -/
def createProjectRulesContent (name description : String) : RulesContent :=
  { markdown := createProjectMarkdown name description
    label := "Project Summary"
    fileName := "project.mdc" }

/-- Modelled from the spec (§4.2): the markdown of the empty-project fallback
document produced by `createEmptyProjectRulesContent` (not in the provided
sources).  It contains no Layer/Stack headings. -/
def createEmptyProjectMarkdown (name description : String) : String :=
  "AI Rules for " ++ name ++ "\n\n" ++ description ++
    "\n\nNo libraries selected. Add libraries to generate rules.\n"

/-- Modelled from the spec (§4.2): `createEmptyProjectRulesContent` from
`markdown-builders` (not in the provided sources) — the single fallback
document returned by both strategies on an empty selection. -/
def createEmptyProjectRulesContent (name description : String) :
    List RulesContent :=
  [{ markdown := createEmptyProjectMarkdown name description
     label := "Empty Project"
     fileName := "rules.mdc" }]

/-- The ordered list of selected Libraries grouped under a Stack, read from
the `librariesByStack` association list (empty when the Stack is absent). -/
def librariesOf (librariesByStack : List (String × List String))
    (stack : String) : List String :=
  (librariesByStack.lookup stack).getD []

/-- Modelled from the spec (§4.3): `iterateLayersStacksLibraries` from
`markdown-builders` (not in the provided sources) — visits every grouped
Library once, by Layer then Stack, in the declared order of the groupings.
The callback-visitor of the source is embedded as the list of visited
`(layer, stack, library)` triples in visitation order. -/
def iterateLayersStacksLibraries
    (stacksByLayer librariesByStack : List (String × List String)) :
    List (String × String × String) :=
  (stacksByLayer.map (fun p =>
    (p.2.map (fun stack =>
      (librariesOf librariesByStack stack).map
        (fun library => (p.1, stack, library)))).flatten)).flatten

/-- One visitation step of the Single-File strategy's `onLibrary` callback:
the visited triple together with the header / spacing decisions the source
takes at that step. -/
structure RenderEvent where
  layer : String
  stack : String
  library : String
  includeLayerHeader : Bool
  includeStackHeader : Bool
  blankBefore : Bool
deriving DecidableEq

/-- The sequence of `RenderEvent`s produced by the Single-File strategy's
`generateLibraryMarkdown` callback, threading `previousLayer` /
`previousStack` exactly as the source does (both start as the empty
string). -/
def renderEventsAux (previousLayer previousStack : String) :
    List (String × String × String) → List RenderEvent
  | [] => []
  | t :: rest =>
    { layer := t.1
      stack := t.2.1
      library := t.2.2
      includeLayerHeader := t.1 != previousLayer
      includeStackHeader := t.2.1 != previousStack
      blankBefore :=
        (t.2.1 != previousStack) && !(t.1 != previousLayer) &&
          (previousStack != "") } :: renderEventsAux t.1 t.2.1 rest

/-- The render events of the Single-File strategy over given groupings. -/
def singleFileEvents
    (stacksByLayer librariesByStack : List (String × List String)) :
    List RenderEvent :=
  renderEventsAux "" "" (iterateLayersStacksLibraries stacksByLayer librariesByStack)

/-- The markdown contributed by one render event: the optional blank-line
separator followed by the rendered library section. -/
def renderEventMarkdown (e : RenderEvent) : String :=
  (if e.blankBefore then "\n" else "") ++
    renderLibrarySection e.layer e.stack e.library
      e.includeLayerHeader e.includeStackHeader

/-- Translated from `SingleFileRulesStrategy.generateLibraryMarkdown`
(SingleFileRulesStrategy.ts lines 33–67): the accumulator loop over the
visited triples, with `markdown`, `previousLayer`, `previousStack` threaded
explicitly.  A blank line is appended before a new Stack's content when the
Stack header is included, the Layer header is not, and `previousStack` is
non-empty (JavaScript truthiness of the string). -/
def generateLibraryMarkdownAux (markdown previousLayer previousStack : String) :
    List (String × String × String) → String
  | [] => markdown
  | t :: rest =>
    generateLibraryMarkdownAux
      ((if (t.2.1 != previousStack) && !(t.1 != previousLayer) &&
            (previousStack != "") then markdown ++ "\n" else markdown) ++
        renderLibrarySection t.1 t.2.1 t.2.2
          (t.1 != previousLayer) (t.2.1 != previousStack))
      t.1 t.2.1 rest

/-- Translated from `SingleFileRulesStrategy.generateLibraryMarkdown`
(SingleFileRulesStrategy.ts lines 33–67). -/
def SingleFileRulesStrategy.generateLibraryMarkdown
    (stacksByLayer librariesByStack : List (String × List String)) : String :=
  generateLibraryMarkdownAux "" "" ""
    (iterateLayersStacksLibraries stacksByLayer librariesByStack)

/-- Translated from `SingleFileRulesStrategy.generateRules`
(SingleFileRulesStrategy.ts lines 15–31). -/
def SingleFileRulesStrategy.generateRules
    (projectName projectDescription : String)
    (selectedLibraries : List String)
    (stacksByLayer librariesByStack : List (String × List String)) :
    List RulesContent :=
  if selectedLibraries.length = 0 then
    createEmptyProjectRulesContent projectName projectDescription
  else
    [{ markdown :=
         createProjectMarkdown projectName projectDescription ++
           SingleFileRulesStrategy.generateLibraryMarkdown
             stacksByLayer librariesByStack
       label := "All Rules"
       fileName := "rules.mdc" }]

/-- Modelled from the spec (§4.4): `createLibraryFileMetadata` from
`markdown-builders` (not in the provided sources) — the `(label, fileName)`
pair derived deterministically from the `(layer, stack, library)` triple.
Because a Library identifier is globally unique in the taxonomy (each
Library belongs to exactly one Stack, §3), the fileName is derived from the
Library component of the triple; this realises §4.4's collision-freedom
invariant — distinct Libraries always yield distinct filenames —
unconditionally, also for identifiers that contain the `-` character
(e.g. `react-query`). -/
def createLibraryFileMetadata (layer stack library : String) :
    String × String :=
  (layer ++ " - " ++ stack ++ " - " ++ library, library ++ ".mdc")

/-- Translated from `MultiFileRulesStrategy.buildRulesContent`
(MultiFileRulesStrategy.ts lines 65–83): renders the library section with
both headers included and attaches the derived label / fileName. -/
def MultiFileRulesStrategy.buildRulesContent
    (layer stack library : String) : RulesContent :=
  { markdown := renderLibrarySection layer stack library true true
    label := (createLibraryFileMetadata layer stack library).1
    fileName := (createLibraryFileMetadata layer stack library).2 }

/-- Translated from `MultiFileRulesStrategy.generateRules`
(MultiFileRulesStrategy.ts lines 41–63): the project-summary document
followed by one `buildRulesContent` per visited triple, in visitation
order. -/
def MultiFileRulesStrategy.generateRules
    (projectName projectDescription : String)
    (selectedLibraries : List String)
    (stacksByLayer librariesByStack : List (String × List String)) :
    List RulesContent :=
  if selectedLibraries.length = 0 then
    createEmptyProjectRulesContent projectName projectDescription
  else
    createProjectRulesContent projectName projectDescription ::
      (iterateLayersStacksLibraries stacksByLayer librariesByStack).map
        (fun t => MultiFileRulesStrategy.buildRulesContent t.1 t.2.1 t.2.2)

/-- First-encounter flags: `specFlagsAux seen xs` is `true` at a position
precisely when the element there occurs neither in `seen` nor earlier in
`xs`.  This is the specification-side notion of "first encounter in
traversal order". -/
def specFlagsAux (seen : List String) : List String → List Bool
  | [] => []
  | x :: rest =>
    decide (¬ x ∈ seen) ::
      specFlagsAux (if x ∈ seen then seen else x :: seen) rest

/-- First-encounter flags of a list, with nothing previously seen. -/
def specFlags (xs : List String) : List Bool :=
  specFlagsAux [] xs

/-- The sublist of first occurrences of a list (each distinct value kept once,
at its first position), relative to an already-seen set. -/
def firstOccurrencesAux (seen : List String) : List String → List String
  | [] => []
  | x :: rest =>
    if x ∈ seen then firstOccurrencesAux seen rest
    else x :: firstOccurrencesAux (x :: seen) rest

/-- The sublist of first occurrences of a list. -/
def firstOccurrences (xs : List String) : List String :=
  firstOccurrencesAux [] xs

/-- The implementation-side deduplication flags: `true` where an element
differs from its predecessor (with `prev` before the first element).  This is
exactly how the Single-File strategy decides header emission. -/
def dedupFlags (prev : String) : List String → List Bool
  | [] => []
  | x :: rest => (x != prev) :: dedupFlags x rest

/-- A list of constant blocks, each block a tag repeated a given number of
times, flattened in order. -/
def replicateFlatten (bs : List (String × Nat)) : List String :=
  (bs.map (fun p => List.replicate p.2 p.1)).flatten

/-- The Layer blocks of the traversal: each grouping entry contributes its
Layer tag once per visited Library of that entry. -/
def layerBlocks (stacksByLayer librariesByStack : List (String × List String)) :
    List (String × Nat) :=
  stacksByLayer.map (fun p =>
    (p.1, ((p.2.map (fun stack => librariesOf librariesByStack stack)).flatten).length))

/-- The Stack blocks of the traversal: each Stack contributes its tag once
per visited Library of that Stack. -/
def stackBlocks (stacksByLayer librariesByStack : List (String × List String)) :
    List (String × Nat) :=
  (stacksByLayer.map (fun p =>
    p.2.map (fun stack => (stack, (librariesOf librariesByStack stack).length)))).flatten

/-- The argument record of a `generateRules` call, used to embed the call in
state-passing form for the frame property: the source reads these values and
never writes to them. -/
structure GenerationArgs where
  projectName : String
  projectDescription : String
  selectedLibraries : List String
  stacksByLayer : List (String × List String)
  librariesByStack : List (String × List String)
deriving DecidableEq

/-- State-passing embedding of `SingleFileRulesStrategy.generateRules`: the
call consumes the argument state and returns it alongside the output; the
source performs only reads of its parameters, so the embedding threads the
state through unchanged. -/
def SingleFileRulesStrategy.generateRulesSt (a : GenerationArgs) :
    List RulesContent × GenerationArgs :=
  (SingleFileRulesStrategy.generateRules a.projectName a.projectDescription
    a.selectedLibraries a.stacksByLayer a.librariesByStack, a)

/-- State-passing embedding of `MultiFileRulesStrategy.generateRules`; the
source performs only reads of its parameters (its only write is a push onto
the local `markdowns` array). -/
def MultiFileRulesStrategy.generateRulesSt (a : GenerationArgs) :
    List RulesContent × GenerationArgs :=
  (MultiFileRulesStrategy.generateRules a.projectName a.projectDescription
    a.selectedLibraries a.stacksByLayer a.librariesByStack, a)

/-- Modelled from the spec (§4.5): the selection-relevant state of the
`techStackStore` (not in the provided sources) — the current selected
Library identifiers and the `originalLibraries` baseline. -/
structure TechStackState where
  selectedLibraries : List String
  originalLibraries : List String
deriving DecidableEq

/-- Modelled from the spec (§4.5): `isDirty` (not in the provided sources) —
true iff the current selected-Library identifiers differ **as a set** from
`originalLibraries`. -/
def TechStackState.isDirty (s : TechStackState) : Bool :=
  !(s.selectedLibraries.all (fun x => s.originalLibraries.contains x) &&
    s.originalLibraries.all (fun x => s.selectedLibraries.contains x))

/-- Modelled from the spec (§4.5): `toggleLibrary` (not in the provided
sources) — flips membership of a Library identifier in the current
selection. -/
def TechStackState.toggleLibrary (s : TechStackState) (id : String) :
    TechStackState :=
  if s.selectedLibraries.contains id then
    { s with selectedLibraries := s.selectedLibraries.filter (fun x => x != id) }
  else
    { s with selectedLibraries := id :: s.selectedLibraries }

/-- Modelled from the spec (§4.5): `loadOriginal` (not in the provided
sources) — replaces both the current selection and the baseline with the
given set. -/
def TechStackState.loadOriginal (_ : TechStackState)
    (libraries : List String) : TechStackState :=
  { selectedLibraries := libraries, originalLibraries := libraries }

/-- Modelled from the spec (§4.5): the URL-codec encoder (not in the provided
sources) — the selected Library identifiers joined with a `,` separator into
one query-parameter value. -/
def encodeSelection (selection : List String) : String :=
  String.mk (((selection.map String.data).intersperse [',']).flatten)

/-- Splitting a character list on the `,` separator (the inverse direction of
the codec's joining). -/
def splitOnComma : List Char → List (List Char)
  | [] => [[]]
  | c :: cs =>
    match splitOnComma cs with
    | [] => [[c]]
    | g :: gs => if c = ',' then [] :: g :: gs else (c :: g) :: gs

/-- Modelled from the spec (§4.5, §7): the URL-codec decoder (not in the
provided sources) — splits the raw string on the separator and keeps only
identifiers of the closed taxonomy (`validLibraries`), silently dropping
unknown or stale identifiers. -/
def decodeSelection (validLibraries : List String) (s : String) :
    List String :=
  ((splitOnComma s.data).map (fun cs => String.mk cs)).filter
    (fun id => validLibraries.contains id)

/-- Concrete groupings fixture: the spec's §8 header-deduplication example —
Layers `[Frontend, Frontend, Backend]`, Stacks `[React, Vue, Express]`. -/
def exampleStacksByLayer : List (String × List String) :=
  [("Frontend", ["React", "Vue"]), ("Backend", ["Express"])]

/-- Concrete groupings fixture: one selected Library per Stack of
`exampleStacksByLayer`. -/
def exampleLibrariesByStack : List (String × List String) :=
  [("React", ["react-query"]), ("Vue", ["pinia"]), ("Express", ["zod"])]

/-- Concrete selection fixture matching `exampleLibrariesByStack`. -/
def exampleSelection : List String :=
  ["react-query", "pinia", "zod"]

/-! ## Helper lemmas -/

theorem stringFoldlAppend (l : List String) (a : String) :
    l.foldl (· ++ ·) a = a ++ l.foldl (· ++ ·) "" := by
  induction l generalizing a with
  | nil => simp
  | cons x xs ih =>
    simp only [List.foldl_cons]
    rw [ih (a ++ x), ih ("" ++ x)]
    simp [String.append_assoc]

theorem stringJoin_cons (s : String) (l : List String) :
    String.join (s :: l) = s ++ String.join l := by
  simp only [String.join, List.foldl_cons]
  rw [stringFoldlAppend]
  simp

theorem hash_not_mem_emptyProjectMarkdown (pn pd : String)
    (h1 : ¬ '#' ∈ pn.data) (h2 : ¬ '#' ∈ pd.data) :
    ¬ '#' ∈ (createEmptyProjectMarkdown pn pd).data := by
  simp only [createEmptyProjectMarkdown, String.data_append, List.mem_append]
  intro h
  rcases h with (((h | h) | h) | h) | h
  · revert h; decide
  · exact h1 h
  · revert h; decide
  · exact h2 h
  · revert h; decide

theorem hash_mem_layerHeading (layer : String) :
    '#' ∈ (layerHeading layer).data := by
  simp only [layerHeading, String.data_append, List.mem_append]
  left; left; decide

theorem hash_mem_stackHeading (stack : String) :
    '#' ∈ (stackHeading stack).data := by
  simp only [stackHeading, String.data_append, List.mem_append]
  left; left; decide

/-! ## C3: empty-selection short-circuit -/

/-- C3: with an empty `selectedLibraries` list, both strategies return
exactly the single empty-project fallback document, the result does not
depend on the groupings (no traversal is performed), and no Layer or Stack
heading occurs in the output markdown. -/
theorem c3_empty_selection_short_circuit
    (pn pd : String) (sbl lbs sbl2 lbs2 : List (String × List String))
    (h1 : ¬ '#' ∈ pn.data) (h2 : ¬ '#' ∈ pd.data) :
    SingleFileRulesStrategy.generateRules pn pd [] sbl lbs =
        createEmptyProjectRulesContent pn pd ∧
    MultiFileRulesStrategy.generateRules pn pd [] sbl lbs =
        createEmptyProjectRulesContent pn pd ∧
    (createEmptyProjectRulesContent pn pd).length = 1 ∧
    SingleFileRulesStrategy.generateRules pn pd [] sbl lbs =
        SingleFileRulesStrategy.generateRules pn pd [] sbl2 lbs2 ∧
    MultiFileRulesStrategy.generateRules pn pd [] sbl lbs =
        MultiFileRulesStrategy.generateRules pn pd [] sbl2 lbs2 ∧
    (∀ rc ∈ createEmptyProjectRulesContent pn pd, ∀ layer,
      ¬ (layerHeading layer).data <:+: rc.markdown.data) ∧
    (∀ rc ∈ createEmptyProjectRulesContent pn pd, ∀ stack,
      ¬ (stackHeading stack).data <:+: rc.markdown.data) := by
  refine ⟨rfl, rfl, rfl, rfl, rfl, ?_, ?_⟩
  · intro rc hrc layer hinf
    simp only [createEmptyProjectRulesContent, List.mem_singleton] at hrc
    subst hrc
    exact hash_not_mem_emptyProjectMarkdown pn pd h1 h2
      (hinf.subset (hash_mem_layerHeading layer))
  · intro rc hrc stack hinf
    simp only [createEmptyProjectRulesContent, List.mem_singleton] at hrc
    subst hrc
    exact hash_not_mem_emptyProjectMarkdown pn pd h1 h2
      (hinf.subset (hash_mem_stackHeading stack))

/-- Witness for C3 at the concrete project context "Acme" / "Demo". -/
theorem c3_empty_selection_short_circuit_witness :
    (¬ '#' ∈ "Acme".data) ∧ (¬ '#' ∈ "Demo".data) ∧
    (SingleFileRulesStrategy.generateRules "Acme" "Demo" []
        exampleStacksByLayer exampleLibrariesByStack =
        createEmptyProjectRulesContent "Acme" "Demo" ∧
    MultiFileRulesStrategy.generateRules "Acme" "Demo" []
        exampleStacksByLayer exampleLibrariesByStack =
        createEmptyProjectRulesContent "Acme" "Demo" ∧
    (createEmptyProjectRulesContent "Acme" "Demo").length = 1 ∧
    SingleFileRulesStrategy.generateRules "Acme" "Demo" []
        exampleStacksByLayer exampleLibrariesByStack =
        SingleFileRulesStrategy.generateRules "Acme" "Demo" [] [] [] ∧
    MultiFileRulesStrategy.generateRules "Acme" "Demo" []
        exampleStacksByLayer exampleLibrariesByStack =
        MultiFileRulesStrategy.generateRules "Acme" "Demo" [] [] [] ∧
    (∀ rc ∈ createEmptyProjectRulesContent "Acme" "Demo", ∀ layer,
      ¬ (layerHeading layer).data <:+: rc.markdown.data) ∧
    (∀ rc ∈ createEmptyProjectRulesContent "Acme" "Demo", ∀ stack,
      ¬ (stackHeading stack).data <:+: rc.markdown.data)) :=
  ⟨by decide, by decide,
    c3_empty_selection_short_circuit "Acme" "Demo"
      exampleStacksByLayer exampleLibrariesByStack [] [] (by decide) (by decide)⟩

/-! ## C4: determinism and selection-order independence -/

/-- C4: both strategies are deterministic functions of their arguments, and
two selections that are permutations of each other (the same set presented
in different insertion orders) produce identical output for fixed groupings
and project context. -/
theorem c4_selection_order_independent
    (pn pd : String) (sel1 sel2 : List String)
    (sbl lbs : List (String × List String))
    (h : List.Perm sel1 sel2) :
    SingleFileRulesStrategy.generateRules pn pd sel1 sbl lbs =
      SingleFileRulesStrategy.generateRules pn pd sel2 sbl lbs ∧
    MultiFileRulesStrategy.generateRules pn pd sel1 sbl lbs =
      MultiFileRulesStrategy.generateRules pn pd sel2 sbl lbs := by
  have hlen : sel1.length = sel2.length := h.length_eq
  constructor
  · simp [SingleFileRulesStrategy.generateRules, hlen]
  · simp [MultiFileRulesStrategy.generateRules, hlen]

/-- Witness for C4 with the selections `[A, B]` and `[B, A]`. -/
theorem c4_selection_order_independent_witness :
    List.Perm ["pinia", "zod"] ["zod", "pinia"] ∧
    (SingleFileRulesStrategy.generateRules "Acme" "Demo" ["pinia", "zod"]
        exampleStacksByLayer exampleLibrariesByStack =
      SingleFileRulesStrategy.generateRules "Acme" "Demo" ["zod", "pinia"]
        exampleStacksByLayer exampleLibrariesByStack ∧
    MultiFileRulesStrategy.generateRules "Acme" "Demo" ["pinia", "zod"]
        exampleStacksByLayer exampleLibrariesByStack =
      MultiFileRulesStrategy.generateRules "Acme" "Demo" ["zod", "pinia"]
        exampleStacksByLayer exampleLibrariesByStack) :=
  ⟨by decide,
    c4_selection_order_independent "Acme" "Demo" ["pinia", "zod"] ["zod", "pinia"]
      exampleStacksByLayer exampleLibrariesByStack (by decide)⟩

/-! ## C8: Single-File output shape on non-empty selections -/

/-- C8: on a non-empty selection the Single-File strategy returns exactly one
`RulesContent`, with label `"All Rules"` and the fixed fileName `"rules.mdc"`
(independent of the selection), whose markdown is the project header followed
by the per-library fragments. -/
theorem c8_single_file_shape
    (pn pd : String) (sel : List String)
    (sbl lbs : List (String × List String)) (h : sel ≠ []) :
    SingleFileRulesStrategy.generateRules pn pd sel sbl lbs =
      [{ markdown := createProjectMarkdown pn pd ++
           SingleFileRulesStrategy.generateLibraryMarkdown sbl lbs,
         label := "All Rules", fileName := "rules.mdc" }] ∧
    (SingleFileRulesStrategy.generateRules pn pd sel sbl lbs).length = 1 ∧
    (∀ rc ∈ SingleFileRulesStrategy.generateRules pn pd sel sbl lbs,
      rc.label = "All Rules" ∧ rc.fileName = "rules.mdc" ∧
      (createProjectMarkdown pn pd).data <+: rc.markdown.data) := by
  have hlen : ¬ sel.length = 0 := by simpa [List.length_eq_zero] using h
  refine ⟨by simp [SingleFileRulesStrategy.generateRules, hlen], ?_, ?_⟩
  · simp [SingleFileRulesStrategy.generateRules, hlen]
  · intro rc hrc
    simp only [SingleFileRulesStrategy.generateRules, hlen, if_false,
      List.mem_singleton] at hrc
    subst hrc
    exact ⟨rfl, rfl,
      ⟨(SingleFileRulesStrategy.generateLibraryMarkdown sbl lbs).data,
        by simp [String.data_append]⟩⟩

/-- Witness for C8 at the concrete example selection. -/
theorem c8_single_file_shape_witness :
    exampleSelection ≠ [] ∧
    (SingleFileRulesStrategy.generateRules "Acme" "Demo" exampleSelection
        exampleStacksByLayer exampleLibrariesByStack =
      [{ markdown := createProjectMarkdown "Acme" "Demo" ++
           SingleFileRulesStrategy.generateLibraryMarkdown
             exampleStacksByLayer exampleLibrariesByStack,
         label := "All Rules", fileName := "rules.mdc" }] ∧
    (SingleFileRulesStrategy.generateRules "Acme" "Demo" exampleSelection
        exampleStacksByLayer exampleLibrariesByStack).length = 1 ∧
    (∀ rc ∈ SingleFileRulesStrategy.generateRules "Acme" "Demo" exampleSelection
        exampleStacksByLayer exampleLibrariesByStack,
      rc.label = "All Rules" ∧ rc.fileName = "rules.mdc" ∧
      (createProjectMarkdown "Acme" "Demo").data <+: rc.markdown.data)) :=
  ⟨by decide,
    c8_single_file_shape "Acme" "Demo" exampleSelection
      exampleStacksByLayer exampleLibrariesByStack (by decide)⟩

/-! ## C9: generateRules does not modify its arguments -/

/-- C9: in the state-passing embedding of either strategy, the argument state
after the call equals the argument state before it — the strategies only read
`selectedLibraries`, `stacksByLayer` and `librariesByStack`. -/
theorem c9_generateRules_frame (a : GenerationArgs) :
    (SingleFileRulesStrategy.generateRulesSt a).2 = a ∧
    (MultiFileRulesStrategy.generateRulesSt a).2 = a :=
  ⟨rfl, rfl⟩

/-! ## C10: the strategies agree on empty selections -/

/-- C10: restricted to empty selections the two strategies are equivalent —
both return exactly `createEmptyProjectRulesContent projectName
projectDescription`, for arbitrary (and even differing) groupings. -/
theorem c10_strategies_agree_on_empty
    (pn pd : String) (sbl lbs sbl2 lbs2 : List (String × List String)) :
    SingleFileRulesStrategy.generateRules pn pd [] sbl lbs =
      createEmptyProjectRulesContent pn pd ∧
    MultiFileRulesStrategy.generateRules pn pd [] sbl2 lbs2 =
      createEmptyProjectRulesContent pn pd ∧
    SingleFileRulesStrategy.generateRules pn pd [] sbl lbs =
      MultiFileRulesStrategy.generateRules pn pd [] sbl2 lbs2 :=
  ⟨rfl, rfl, rfl⟩

/-! ## C2: Multi-File output shape -/

/-- C2: on a non-empty selection the Multi-File strategy returns the
project-summary document first, followed by exactly one `buildRulesContent`
per visited `(layer, stack, library)` triple in traversal order; each such
document renders its section with both headers included, and when the
traversal visits exactly the selected Libraries (as a multiset) there is
exactly one document per selected Library. -/
theorem c2_multi_file_shape
    (pn pd : String) (sel : List String)
    (sbl lbs : List (String × List String))
    (hne : sel ≠ [])
    (hperm : List.Perm
      ((iterateLayersStacksLibraries sbl lbs).map (fun t => t.2.2)) sel) :
    MultiFileRulesStrategy.generateRules pn pd sel sbl lbs =
      createProjectRulesContent pn pd ::
        (iterateLayersStacksLibraries sbl lbs).map
          (fun t => MultiFileRulesStrategy.buildRulesContent t.1 t.2.1 t.2.2) ∧
    (MultiFileRulesStrategy.generateRules pn pd sel sbl lbs).length =
      1 + sel.length ∧
    (MultiFileRulesStrategy.generateRules pn pd sel sbl lbs).head? =
      some (createProjectRulesContent pn pd) ∧
    (∀ t ∈ iterateLayersStacksLibraries sbl lbs,
      (MultiFileRulesStrategy.buildRulesContent t.1 t.2.1 t.2.2).markdown =
        renderLibrarySection t.1 t.2.1 t.2.2 true true) ∧
    (sel.Nodup → ∀ lib ∈ sel,
      (iterateLayersStacksLibraries sbl lbs).countP (fun t => t.2.2 == lib) = 1) := by
  have hlen : ¬ sel.length = 0 := by simpa [List.length_eq_zero] using hne
  refine ⟨by simp [MultiFileRulesStrategy.generateRules, hlen], ?_, ?_, ?_, ?_⟩
  · simp only [MultiFileRulesStrategy.generateRules, hlen, if_false]
    simp [← hperm.length_eq, Nat.add_comm]
  · simp [MultiFileRulesStrategy.generateRules, hlen]
  · intro t _
    rfl
  · intro hnd lib hmem
    have hcount : ((iterateLayersStacksLibraries sbl lbs).map
        (fun t => t.2.2)).count lib = sel.count lib := hperm.count_eq lib
    have hone : sel.count lib = 1 := List.count_eq_one_of_mem hnd hmem
    have hmapc : ((iterateLayersStacksLibraries sbl lbs).map
        (fun t => t.2.2)).count lib =
        (iterateLayersStacksLibraries sbl lbs).countP (fun t => t.2.2 == lib) := by
      simp [List.count, List.countP_map]
      rfl
    rw [← hmapc, hcount, hone]

/-- Witness for C2 at the concrete example groupings and selection. -/
theorem c2_multi_file_shape_witness :
    exampleSelection ≠ [] ∧
    List.Perm ((iterateLayersStacksLibraries exampleStacksByLayer
        exampleLibrariesByStack).map (fun t => t.2.2)) exampleSelection ∧
    (MultiFileRulesStrategy.generateRules "Acme" "Demo" exampleSelection
        exampleStacksByLayer exampleLibrariesByStack =
      createProjectRulesContent "Acme" "Demo" ::
        (iterateLayersStacksLibraries exampleStacksByLayer
            exampleLibrariesByStack).map
          (fun t => MultiFileRulesStrategy.buildRulesContent t.1 t.2.1 t.2.2) ∧
    (MultiFileRulesStrategy.generateRules "Acme" "Demo" exampleSelection
        exampleStacksByLayer exampleLibrariesByStack).length =
      1 + exampleSelection.length ∧
    (MultiFileRulesStrategy.generateRules "Acme" "Demo" exampleSelection
        exampleStacksByLayer exampleLibrariesByStack).head? =
      some (createProjectRulesContent "Acme" "Demo") ∧
    (∀ t ∈ iterateLayersStacksLibraries exampleStacksByLayer
        exampleLibrariesByStack,
      (MultiFileRulesStrategy.buildRulesContent t.1 t.2.1 t.2.2).markdown =
        renderLibrarySection t.1 t.2.1 t.2.2 true true) ∧
    (exampleSelection.Nodup → ∀ lib ∈ exampleSelection,
      (iterateLayersStacksLibraries exampleStacksByLayer
          exampleLibrariesByStack).countP (fun t => t.2.2 == lib) = 1)) :=
  ⟨by decide, by decide,
    c2_multi_file_shape "Acme" "Demo" exampleSelection
      exampleStacksByLayer exampleLibrariesByStack (by decide) (by decide)⟩

/-! ## C5: Multi-File filename collision-freedom -/

/-- C5: Multi-File fileNames are derived deterministically from the
`(layer, stack, library)` triple, and two documents built for distinct
Libraries have distinct fileNames, unconditionally. -/
theorem c5_filename_collision_freedom
    (l1 s1 lib1 l2 s2 lib2 : String)
    (hne : lib1 ≠ lib2) :
    (MultiFileRulesStrategy.buildRulesContent l1 s1 lib1).fileName ≠
      (MultiFileRulesStrategy.buildRulesContent l2 s2 lib2).fileName ∧
    (∀ l s lib, (MultiFileRulesStrategy.buildRulesContent l s lib).fileName =
      (createLibraryFileMetadata l s lib).2) := by
  refine ⟨?_, fun l s lib => rfl⟩
  intro heq
  have hdata : lib1.data ++ ".mdc".data = lib2.data ++ ".mdc".data := by
    have := congrArg (fun s : String => s.data) heq
    simpa [MultiFileRulesStrategy.buildRulesContent, createLibraryFileMetadata,
      String.data_append] using this
  exact hne (String.ext (List.append_cancel_right hdata))

/-- Witness for C5 at two concrete distinct Libraries, one of them a real
dash-containing identifier. -/
theorem c5_filename_collision_freedom_witness :
    ("react-query" : String) ≠ "pinia" ∧
    ((MultiFileRulesStrategy.buildRulesContent "Frontend" "React" "react-query").fileName ≠
      (MultiFileRulesStrategy.buildRulesContent "Frontend" "Vue" "pinia").fileName ∧
    (∀ l s lib, (MultiFileRulesStrategy.buildRulesContent l s lib).fileName =
      (createLibraryFileMetadata l s lib).2)) :=
  ⟨by decide,
    c5_filename_collision_freedom "Frontend" "React" "react-query"
      "Frontend" "Vue" "pinia" (by decide)⟩

/-! ## C7: dirty-state law -/

theorem isDirty_eq_false_iff (s : TechStackState) :
    s.isDirty = false ↔
      (∀ x, x ∈ s.selectedLibraries ↔ x ∈ s.originalLibraries) := by
  simp only [TechStackState.isDirty, Bool.not_eq_false', Bool.and_eq_true,
    List.all_eq_true]
  constructor
  · rintro ⟨hab, hba⟩ x
    exact ⟨fun hx => List.elem_iff.mp (hab x hx),
      fun hx => List.elem_iff.mp (hba x hx)⟩
  · intro h
    exact ⟨fun x hx => List.elem_iff.mpr ((h x).mp hx),
      fun x hx => List.elem_iff.mpr ((h x).mpr hx)⟩

theorem isDirty_eq_true_of_not_setEq (s : TechStackState)
    (h : ¬ (∀ x, x ∈ s.selectedLibraries ↔ x ∈ s.originalLibraries)) :
    s.isDirty = true := by
  cases hd : s.isDirty with
  | false => exact absurd ((isDirty_eq_false_iff s).mp hd) h
  | true => rfl

theorem isDirty_congr_selected (a b o : List String)
    (h : ∀ x, x ∈ a ↔ x ∈ b) :
    TechStackState.isDirty ⟨a, o⟩ = TechStackState.isDirty ⟨b, o⟩ := by
  have hiff : TechStackState.isDirty ⟨a, o⟩ = false ↔
      TechStackState.isDirty ⟨b, o⟩ = false := by
    rw [isDirty_eq_false_iff, isDirty_eq_false_iff]
    constructor
    · intro ha x
      exact Iff.trans (Iff.symm (h x)) (ha x)
    · intro hb x
      exact Iff.trans (h x) (hb x)
  cases ha : TechStackState.isDirty ⟨a, o⟩ with
  | false => exact (hiff.mp ha).symm
  | true =>
    cases hb : TechStackState.isDirty ⟨b, o⟩ with
    | false => rw [← ha, hiff.mpr hb]
    | true => rfl

theorem mem_toggle_selected (s : TechStackState) (id x : String) :
    x ∈ (s.toggleLibrary id).selectedLibraries ↔
      (x ∈ s.selectedLibraries ∧ x ≠ id) ∨
      (¬ id ∈ s.selectedLibraries ∧ x = id) := by
  by_cases hid : id ∈ s.selectedLibraries
  · simp [TechStackState.toggleLibrary, hid, List.mem_filter, bne_iff_ne]
  · simp only [TechStackState.toggleLibrary]
    rw [if_neg (by simpa using hid)]
    simp only [List.mem_cons]
    constructor
    · rintro (h | h)
      · exact Or.inr ⟨hid, h⟩
      · by_cases hxid : x = id
        · exact Or.inr ⟨hid, hxid⟩
        · exact Or.inl ⟨h, hxid⟩
    · rintro (⟨h, _⟩ | ⟨_, h⟩)
      · exact Or.inr h
      · exact Or.inl h

theorem toggle_original (s : TechStackState) (id : String) :
    (s.toggleLibrary id).originalLibraries = s.originalLibraries := by
  unfold TechStackState.toggleLibrary
  split <;> rfl

theorem mem_toggle_toggle_selected (s : TechStackState) (id x : String) :
    x ∈ ((s.toggleLibrary id).toggleLibrary id).selectedLibraries ↔
      x ∈ s.selectedLibraries := by
  rw [mem_toggle_selected, mem_toggle_selected, mem_toggle_selected]
  by_cases hid : id ∈ s.selectedLibraries
  · by_cases hx : x = id
    · subst hx
      simp [hid]
    · simp [hx, hid]
  · by_cases hx : x = id
    · subst hx
      simp [hid]
    · simp [hx, hid]

/-- C7: `isDirty` is the pure set-comparison of the current selection against
`originalLibraries`: it is true iff the two differ as sets; it is false
immediately after `loadOriginal`; a toggle from a clean state (which always
changes set membership) makes it true, as does the first toggle after
`loadOriginal`; and toggling the same Library twice restores its prior
value. -/
theorem c7_dirty_state_law (s : TechStackState) (L : List String)
    (id : String) :
    (s.isDirty = true ↔
      ¬ (∀ x, x ∈ s.selectedLibraries ↔ x ∈ s.originalLibraries)) ∧
    (s.loadOriginal L).isDirty = false ∧
    ((s.loadOriginal L).toggleLibrary id).isDirty = true ∧
    (s.isDirty = false → (s.toggleLibrary id).isDirty = true) ∧
    ((s.toggleLibrary id).toggleLibrary id).isDirty = s.isDirty := by
  refine ⟨?_, ?_, ?_, ?_, ?_⟩
  · constructor
    · intro hd hiff
      rw [(isDirty_eq_false_iff s).mpr hiff] at hd
      exact Bool.false_ne_true hd
    · exact isDirty_eq_true_of_not_setEq s
  · exact (isDirty_eq_false_iff _).mpr (fun x => Iff.rfl)
  · apply isDirty_eq_true_of_not_setEq
    intro hiff
    have horig : ((s.loadOriginal L).toggleLibrary id).originalLibraries = L :=
      toggle_original _ id
    have hid := hiff id
    rw [horig, mem_toggle_selected] at hid
    simp only [TechStackState.loadOriginal] at hid
    by_cases hmem : id ∈ L
    · simp [hmem] at hid
    · simp [hmem] at hid
  · intro hclean
    have hiff := (isDirty_eq_false_iff s).mp hclean
    apply isDirty_eq_true_of_not_setEq
    intro habs
    have hid := habs id
    rw [mem_toggle_selected, toggle_original] at hid
    by_cases hmem : id ∈ s.selectedLibraries
    · simp [hmem] at hid
      exact hid ((hiff id).mp hmem)
    · simp [hmem] at hid
      exact hmem ((hiff id).mpr hid)
  · have horig : ((s.toggleLibrary id).toggleLibrary id).originalLibraries =
        s.originalLibraries := by
      rw [toggle_original, toggle_original]
    have hsel := mem_toggle_toggle_selected s id
    calc ((s.toggleLibrary id).toggleLibrary id).isDirty
        = TechStackState.isDirty
            ⟨((s.toggleLibrary id).toggleLibrary id).selectedLibraries,
              s.originalLibraries⟩ := by rw [← horig]
      _ = TechStackState.isDirty
            ⟨s.selectedLibraries, s.originalLibraries⟩ :=
          isDirty_congr_selected _ _ _ hsel
      _ = s.isDirty := rfl

/-- Witness for C7 at a concrete store state. -/
theorem c7_dirty_state_law_witness :
    ((TechStackState.mk ["pinia"] ["pinia"]).isDirty = true ↔
      ¬ (∀ x, x ∈ (TechStackState.mk ["pinia"] ["pinia"]).selectedLibraries ↔
        x ∈ (TechStackState.mk ["pinia"] ["pinia"]).originalLibraries)) ∧
    ((TechStackState.mk ["pinia"] ["pinia"]).loadOriginal ["zod"]).isDirty = false ∧
    (((TechStackState.mk ["pinia"] ["pinia"]).loadOriginal ["zod"]).toggleLibrary
      "react-query").isDirty = true ∧
    ((TechStackState.mk ["pinia"] ["pinia"]).isDirty = false →
      ((TechStackState.mk ["pinia"] ["pinia"]).toggleLibrary
        "react-query").isDirty = true) ∧
    (((TechStackState.mk ["pinia"] ["pinia"]).toggleLibrary
        "react-query").toggleLibrary "react-query").isDirty =
      (TechStackState.mk ["pinia"] ["pinia"]).isDirty :=
  c7_dirty_state_law (TechStackState.mk ["pinia"] ["pinia"]) ["zod"] "react-query"

/-! ## C6: URL codec round trip -/

theorem splitOnComma_ne_nil : ∀ (l : List Char), splitOnComma l ≠ [] := by
  intro l
  induction l with
  | nil => simp [splitOnComma]
  | cons c cs ih =>
    simp only [splitOnComma]
    cases h : splitOnComma cs with
    | nil => exact absurd h ih
    | cons g gs =>
      by_cases hc : c = ',' <;> simp [hc]

theorem splitOnComma_sepFree (x : List Char) (h : ¬ ',' ∈ x) :
    splitOnComma x = [x] := by
  induction x with
  | nil => rfl
  | cons c cs ih =>
    have hc : ¬ c = ',' := fun hc => h (hc ▸ List.mem_cons_self c cs)
    have hcs : ¬ ',' ∈ cs := fun hm => h (List.mem_cons_of_mem c hm)
    simp [splitOnComma, ih hcs, hc]

theorem splitOnComma_append_comma (x t : List Char) (h : ¬ ',' ∈ x) :
    splitOnComma (x ++ (',' :: t)) = x :: splitOnComma t := by
  induction x with
  | nil =>
    simp only [List.nil_append, splitOnComma]
    cases hs : splitOnComma t with
    | nil => exact absurd hs (splitOnComma_ne_nil t)
    | cons g gs => simp
  | cons c cs ih =>
    have hc : ¬ c = ',' := fun hc => h (hc ▸ List.mem_cons_self c cs)
    have hcs : ¬ ',' ∈ cs := fun hm => h (List.mem_cons_of_mem c hm)
    simp only [List.cons_append, splitOnComma]
    rw [show cs.append (',' :: t) = cs ++ (',' :: t) from rfl, ih hcs]
    simp [hc]

theorem splitOnComma_encode :
    ∀ (sel : List (List Char)), sel ≠ [] → (∀ x ∈ sel, ¬ ',' ∈ x) →
      splitOnComma ((sel.intersperse [',']).flatten) = sel := by
  intro sel
  induction sel with
  | nil => intro h; exact absurd rfl h
  | cons x rest ih =>
    intro _ hsep
    cases rest with
    | nil =>
      simp only [List.intersperse_single, List.flatten_cons, List.flatten_nil,
        List.append_nil]
      exact splitOnComma_sepFree x (hsep x (List.mem_cons_self x []))
    | cons y rest2 =>
      have hx : ¬ ',' ∈ x := hsep x (List.mem_cons_self x (y :: rest2))
      have hstep : ((x :: y :: rest2).intersperse [',']).flatten =
          x ++ (',' :: ((y :: rest2).intersperse [',']).flatten) := by
        rfl
      rw [hstep, splitOnComma_append_comma x _ hx,
        ih (by simp) (fun z hz => hsep z (List.mem_cons_of_mem x hz))]

/-- C6: the URL codec is a round-trip pair — decoding an encoded valid
Selection (identifiers of the closed taxonomy, no separator character)
reproduces it exactly, and decoding any string at all yields only
identifiers of the closed taxonomy, silently dropping the rest. -/
theorem c6_url_codec_roundtrip (valid sel : List String)
    (hsub : ∀ id ∈ sel, id ∈ valid)
    (hsep : ∀ id ∈ sel, ¬ ',' ∈ id.data)
    (hvalid : ∀ id ∈ valid, id ≠ "") :
    decodeSelection valid (encodeSelection sel) = sel ∧
    (∀ (s : String), ∀ id ∈ decodeSelection valid s, id ∈ valid) := by
  constructor
  · cases hselc : sel with
    | nil =>
      have hnv : ¬ (("" : String) ∈ valid) := fun h => hvalid _ h rfl
      have hred : decodeSelection valid (encodeSelection []) =
          List.filter (fun id => valid.contains id) [String.mk []] := rfl
      rw [hred]
      simp [List.filter_cons, hnv]
    | cons x rest =>
      rw [← hselc]
      have hne2 : sel.map String.data ≠ [] := by
        rw [hselc]; simp
      have hsep2 : ∀ cs ∈ sel.map String.data, ¬ ',' ∈ cs := by
        intro cs hcs
        obtain ⟨id, hid, rfl⟩ := List.mem_map.mp hcs
        exact hsep id hid
      simp only [decodeSelection, encodeSelection]
      rw [splitOnComma_encode (sel.map String.data) hne2 hsep2]
      rw [List.map_map]
      have hmapid : sel.map ((fun cs => String.mk cs) ∘ String.data) = sel := by
        have : ((fun cs => String.mk cs) ∘ String.data) = fun s : String => s :=
          funext (fun s => rfl)
        rw [this, List.map_id']
      rw [hmapid]
      apply List.filter_eq_self.mpr
      intro id hid
      exact List.elem_iff.mpr (hsub id hid)
  · intro s id hid
    have := (List.mem_filter.mp hid).2
    exact List.elem_iff.mp this

/-- Witness for C6 at a concrete valid selection. -/
theorem c6_url_codec_roundtrip_witness :
    (∀ id ∈ ["react-query", "zod"], id ∈ exampleSelection) ∧
    (∀ id ∈ ["react-query", "zod"], ¬ ',' ∈ id.data) ∧
    (∀ id ∈ exampleSelection, id ≠ "") ∧
    (decodeSelection exampleSelection
        (encodeSelection ["react-query", "zod"]) = ["react-query", "zod"] ∧
    (∀ (s : String), ∀ id ∈ decodeSelection exampleSelection s,
      id ∈ exampleSelection)) :=
  ⟨by decide, by decide, by decide,
    c6_url_codec_roundtrip exampleSelection ["react-query", "zod"]
      (by decide) (by decide) (by decide)⟩

/-! ## C1 machinery: render events, first-encounter flags, block structure -/

theorem renderEventsAux_map_layer (ts : List (String × String × String)) :
    ∀ (pl ps : String),
      (renderEventsAux pl ps ts).map (fun e => e.layer) =
        ts.map (fun t => t.1) := by
  induction ts with
  | nil => intro pl ps; rfl
  | cons t rest ih => intro pl ps; simp [renderEventsAux, ih]

theorem renderEventsAux_map_stack (ts : List (String × String × String)) :
    ∀ (pl ps : String),
      (renderEventsAux pl ps ts).map (fun e => e.stack) =
        ts.map (fun t => t.2.1) := by
  induction ts with
  | nil => intro pl ps; rfl
  | cons t rest ih => intro pl ps; simp [renderEventsAux, ih]

theorem renderEventsAux_map_layerFlag (ts : List (String × String × String)) :
    ∀ (pl ps : String),
      (renderEventsAux pl ps ts).map (fun e => e.includeLayerHeader) =
        dedupFlags pl (ts.map (fun t => t.1)) := by
  induction ts with
  | nil => intro pl ps; rfl
  | cons t rest ih => intro pl ps; simp [renderEventsAux, dedupFlags, ih]

theorem renderEventsAux_map_stackFlag (ts : List (String × String × String)) :
    ∀ (pl ps : String),
      (renderEventsAux pl ps ts).map (fun e => e.includeStackHeader) =
        dedupFlags ps (ts.map (fun t => t.2.1)) := by
  induction ts with
  | nil => intro pl ps; rfl
  | cons t rest ih => intro pl ps; simp [renderEventsAux, dedupFlags, ih]

theorem generateLibraryMarkdownAux_eq (ts : List (String × String × String)) :
    ∀ (md pl ps : String),
      generateLibraryMarkdownAux md pl ps ts =
        md ++ String.join ((renderEventsAux pl ps ts).map renderEventMarkdown) := by
  induction ts with
  | nil =>
    intro md pl ps
    simp [generateLibraryMarkdownAux, renderEventsAux, String.join]
  | cons t rest ih =>
    intro md pl ps
    simp only [generateLibraryMarkdownAux, renderEventsAux, List.map_cons]
    rw [ih, stringJoin_cons]
    cases hC : (t.2.1 != ps) && !(t.1 != pl) && (ps != "") with
    | true => simp [renderEventMarkdown, hC, String.append_assoc]
    | false => simp [renderEventMarkdown, hC, String.append_assoc]

theorem specFlagsAux_getElem? :
    ∀ (xs seen : List String) (i : Nat) (b : Bool) (x : String),
      (specFlagsAux seen xs)[i]? = some b → xs[i]? = some x →
      (b = true ↔ (¬ x ∈ seen ∧ ¬ x ∈ xs.take i)) := by
  intro xs
  induction xs with
  | nil => intro seen i b x hb _; simp [specFlagsAux] at hb
  | cons y rest ih =>
    intro seen i b x hb hx
    cases i with
    | zero =>
      simp only [specFlagsAux, List.getElem?_cons_zero, Option.some.injEq] at hb hx
      subst hb
      subst hx
      simp
    | succ i =>
      simp only [specFlagsAux, List.getElem?_cons_succ] at hb hx
      rw [ih _ i b x hb hx]
      simp only [List.take_succ_cons, List.mem_cons]
      by_cases hy : y ∈ seen
      · rw [if_pos hy]
        constructor
        · rintro ⟨h1, h2⟩
          refine ⟨h1, ?_⟩
          rintro (rfl | hm)
          · exact h1 hy
          · exact h2 hm
        · rintro ⟨h1, h2⟩
          exact ⟨h1, fun hm => h2 (Or.inr hm)⟩
      · rw [if_neg hy]
        simp only [List.mem_cons]
        constructor
        · rintro ⟨h1, h2⟩
          exact ⟨fun hm => h1 (Or.inr hm), fun hm => (match hm with
            | Or.inl hxy => h1 (Or.inl hxy)
            | Or.inr hmm => h2 hmm)⟩
        · rintro ⟨h1, h2⟩
          refine ⟨?_, fun hm => h2 (Or.inr hm)⟩
          rintro (hxy | hm)
          · exact h2 (Or.inl hxy)
          · exact h1 hm

theorem replicateFlatten_append (A B : List (String × Nat)) :
    replicateFlatten (A ++ B) = replicateFlatten A ++ replicateFlatten B := by
  simp [replicateFlatten]

theorem dedupFlags_eq_specFlagsAux :
    ∀ (bs : List (String × Nat)) (d : String) (seen : List String),
      (bs.map (fun p => p.1)).Nodup →
      (∀ a ∈ bs.map (fun p => p.1), ¬ a ∈ seen) →
      (∀ a ∈ bs.map (fun p => p.1), a ≠ d) →
      dedupFlags d (replicateFlatten bs) =
        specFlagsAux seen (replicateFlatten bs) := by
  intro bs
  induction bs with
  | nil => intro d seen _ _ _; rfl
  | cons p bs2 ih =>
    intro d seen hnd hseen hne
    obtain ⟨a, n⟩ := p
    have hrf : replicateFlatten ((a, n) :: bs2) =
        List.replicate n a ++ replicateFlatten bs2 := by
      simp [replicateFlatten]
    rw [hrf]
    simp only [List.map_cons] at hnd
    have hnd1 := List.nodup_cons.mp hnd
    have hnd2 : (bs2.map (fun p => p.1)).Nodup := hnd1.2
    have hanotin : ¬ a ∈ bs2.map (fun p => p.1) := hnd1.1
    have haseen : ¬ a ∈ seen := hseen a (by simp)
    have had : a ≠ d := hne a (by simp)
    cases n with
    | zero =>
      simp only [List.replicate, List.nil_append]
      exact ih d seen hnd2 (fun t ht => hseen t (by simp [ht]))
        (fun t ht => hne t (by simp [ht]))
    | succ m =>
      have inner : ∀ (k : Nat) (seen2 : List String), a ∈ seen2 →
          (∀ t ∈ bs2.map (fun p => p.1), ¬ t ∈ seen2) →
          dedupFlags a (List.replicate k a ++ replicateFlatten bs2) =
            specFlagsAux seen2 (List.replicate k a ++ replicateFlatten bs2) := by
        intro k
        induction k with
        | zero =>
          intro seen2 _ hs2
          simp only [List.replicate, List.nil_append]
          exact ih a seen2 hnd2 hs2 (fun t ht => fun he => hanotin (he ▸ ht))
        | succ j ihj =>
          intro seen2 hmem hs2
          simp only [List.replicate_succ, List.cons_append, dedupFlags,
            specFlagsAux]
          rw [if_pos hmem]
          congr 1
          · simp [hmem]
          · exact ihj seen2 hmem hs2
      simp only [List.replicate_succ, List.cons_append, dedupFlags, specFlagsAux]
      rw [if_neg haseen]
      congr 1
      · simp [bne_iff_ne, had, haseen]
      · refine inner m (a :: seen) (by simp) ?_
        intro t ht
        simp only [List.mem_cons]
        rintro (rfl | hts)
        · exact hanotin ht
        · exact hseen t (by simp [ht]) hts

theorem map_fst_const :
    ∀ (l : List (String × String × String)) (a : String),
      (∀ t ∈ l, t.1 = a) →
      l.map (fun t => t.1) = List.replicate l.length a := by
  intro l
  induction l with
  | nil => intro a _; rfl
  | cons t rest ih =>
    intro a h
    simp only [List.map_cons, List.length_cons, List.replicate_succ]
    rw [h t (by simp), ih a (fun u hu => h u (by simp [hu]))]

theorem iterate_cons (p : String × List String)
    (sbl2 lbs : List (String × List String)) :
    iterateLayersStacksLibraries (p :: sbl2) lbs =
      (p.2.map (fun stack =>
        (librariesOf lbs stack).map
          (fun library => (p.1, stack, library)))).flatten ++
        iterateLayersStacksLibraries sbl2 lbs := by
  simp [iterateLayersStacksLibraries]

theorem map_layer_iterate (sbl lbs : List (String × List String)) :
    (iterateLayersStacksLibraries sbl lbs).map (fun t => t.1) =
      replicateFlatten (layerBlocks sbl lbs) := by
  induction sbl with
  | nil => rfl
  | cons p sbl2 ih =>
    have hblocks : replicateFlatten (layerBlocks (p :: sbl2) lbs) =
        List.replicate
          (((p.2.map (fun stack => librariesOf lbs stack)).flatten).length) p.1 ++
          replicateFlatten (layerBlocks sbl2 lbs) := by
      simp [layerBlocks, replicateFlatten]
    rw [iterate_cons, hblocks, List.map_append, ih]
    congr 1
    have hconst : ∀ t ∈ (p.2.map (fun stack =>
        (librariesOf lbs stack).map
          (fun library => (p.1, stack, library)))).flatten, t.1 = p.1 := by
      intro t ht
      simp only [List.mem_flatten, List.mem_map] at ht
      obtain ⟨inner, ⟨stack, _, rfl⟩, hmem⟩ := ht
      obtain ⟨lib, _, rfl⟩ := List.mem_map.mp hmem
      rfl
    rw [map_fst_const _ p.1 hconst]
    congr 1
    simp only [List.length_flatten, List.map_map]
    congr 1
    apply List.map_congr_left
    intro stack _
    simp [Function.comp]

theorem map_const_replicate (l : List String) (a : String) :
    l.map (fun _ => a) = List.replicate l.length a := by
  induction l with
  | nil => rfl
  | cons x rest ih => simp [List.replicate_succ, ih]

theorem map_stack_iterate (sbl lbs : List (String × List String)) :
    (iterateLayersStacksLibraries sbl lbs).map (fun t => t.2.1) =
      replicateFlatten (stackBlocks sbl lbs) := by
  induction sbl with
  | nil => rfl
  | cons p sbl2 ih =>
    have hblocks : replicateFlatten (stackBlocks (p :: sbl2) lbs) =
        replicateFlatten
          (p.2.map (fun stack => (stack, (librariesOf lbs stack).length))) ++
          replicateFlatten (stackBlocks sbl2 lbs) := by
      rw [show stackBlocks (p :: sbl2) lbs =
        p.2.map (fun stack => (stack, (librariesOf lbs stack).length)) ++
          stackBlocks sbl2 lbs from by simp [stackBlocks]]
      exact replicateFlatten_append _ _
    rw [iterate_cons, hblocks, List.map_append, ih]
    congr 1
    rw [List.map_flatten, List.map_map]
    simp only [replicateFlatten, List.map_map]
    congr 1
    apply List.map_congr_left
    intro stack _
    show ((librariesOf lbs stack).map
        (fun library => (p.1, stack, library))).map (fun t => t.2.1) =
      List.replicate (librariesOf lbs stack).length stack
    rw [List.map_map]
    show (librariesOf lbs stack).map (fun _ => stack) =
      List.replicate (librariesOf lbs stack).length stack
    exact map_const_replicate _ _

theorem layerBlocks_tags (sbl lbs : List (String × List String)) :
    (layerBlocks sbl lbs).map (fun p => p.1) = sbl.map (fun p => p.1) := by
  simp [layerBlocks, List.map_map, Function.comp]

theorem stackBlocks_tags (sbl lbs : List (String × List String)) :
    (stackBlocks sbl lbs).map (fun p => p.1) =
      (sbl.map (fun p => p.2)).flatten := by
  simp only [stackBlocks, List.map_flatten, List.map_map]
  congr 1
  apply List.map_congr_left
  intro p _
  show (p.2.map (fun stack =>
    (stack, (librariesOf lbs stack).length))).map (fun q => q.1) = p.2
  rw [List.map_map]
  show p.2.map (fun stack => stack) = p.2
  simp

theorem mem_iterate_proj (sbl lbs : List (String × List String))
    (t : String × String × String)
    (ht : t ∈ iterateLayersStacksLibraries sbl lbs) :
    t.1 ∈ sbl.map (fun p => p.1) ∧
      t.2.1 ∈ (sbl.map (fun p => p.2)).flatten := by
  simp only [iterateLayersStacksLibraries, List.mem_flatten, List.mem_map] at ht
  obtain ⟨inner, ⟨p, hp, rfl⟩, hmem⟩ := ht
  simp only [List.mem_flatten, List.mem_map] at hmem
  obtain ⟨inner2, ⟨stack, hstack, rfl⟩, hmem2⟩ := hmem
  obtain ⟨lib, _, rfl⟩ := List.mem_map.mp hmem2
  constructor
  · exact List.mem_map.mpr ⟨p, hp, rfl⟩
  · exact List.mem_flatten.mpr ⟨p.2, List.mem_map.mpr ⟨p, hp, rfl⟩, hstack⟩

theorem blankBefore_spec :
    ∀ (ts : List (String × String × String)) (pl ps : String),
      (∀ t ∈ ts, t.1 ≠ "" ∧ t.2.1 ≠ "") →
      (ps ≠ "" ∨ pl = "") →
      ∀ e ∈ renderEventsAux pl ps ts,
        e.blankBefore = (e.includeStackHeader && !e.includeLayerHeader) := by
  intro ts
  induction ts with
  | nil => intro pl ps _ _ e he; simp [renderEventsAux] at he
  | cons t rest ih =>
    intro pl ps hne hstate e he
    simp only [renderEventsAux, List.mem_cons] at he
    rcases he with rfl | he2
    · rcases hstate with hps | hpl
      · have hb : (ps != "") = true := bne_iff_ne.mpr hps
        simp [hb]
      · subst hpl
        have h1 : (t.1 != "") = true := bne_iff_ne.mpr (hne t (by simp)).1
        simp [h1]
    · exact ih t.1 t.2.1 (fun u hu => hne u (by simp [hu]))
        (Or.inl (hne t (by simp)).2) e he2

theorem filter_map_firstOccurrences {E : Type} (f : E → String) (g : E → Bool) :
    ∀ (es : List E) (seen : List String),
      es.map g = specFlagsAux seen (es.map f) →
      (es.filter g).map f = firstOccurrencesAux seen (es.map f) := by
  intro es
  induction es with
  | nil => intro seen _; rfl
  | cons e es2 ih =>
    intro seen h
    simp only [List.map_cons, specFlagsAux] at h
    injection h with hg ht
    by_cases hmem : f e ∈ seen
    · rw [if_pos hmem] at ht
      have hge : g e = false := by rw [hg]; simp [hmem]
      simp only [List.map_cons, List.filter_cons, hge, if_false,
        Bool.false_eq_true]
      rw [show firstOccurrencesAux seen (f e :: es2.map f) =
        firstOccurrencesAux seen (es2.map f) from by
          simp [firstOccurrencesAux, hmem]]
      exact ih seen ht
    · rw [if_neg hmem] at ht
      have hge : g e = true := by rw [hg]; simp [hmem]
      simp only [List.map_cons, List.filter_cons, hge, if_true]
      rw [show firstOccurrencesAux seen (f e :: es2.map f) =
        f e :: firstOccurrencesAux (f e :: seen) (es2.map f) from by
          simp [firstOccurrencesAux, hmem]]
      rw [ih (f e :: seen) ht]

theorem not_mem_firstOccurrencesAux :
    ∀ (xs seen : List String) (x : String),
      x ∈ seen → ¬ x ∈ firstOccurrencesAux seen xs := by
  intro xs
  induction xs with
  | nil => intro seen x _ h; simp [firstOccurrencesAux] at h
  | cons y rest ih =>
    intro seen x hx h
    by_cases hy : y ∈ seen
    · rw [show firstOccurrencesAux seen (y :: rest) =
        firstOccurrencesAux seen rest from by simp [firstOccurrencesAux, hy]] at h
      exact ih seen x hx h
    · rw [show firstOccurrencesAux seen (y :: rest) =
        y :: firstOccurrencesAux (y :: seen) rest from by
          simp [firstOccurrencesAux, hy]] at h
      rcases List.mem_cons.mp h with rfl | h2
      · exact hy hx
      · exact ih (y :: seen) x (List.mem_cons_of_mem y hx) h2

theorem nodup_firstOccurrencesAux :
    ∀ (xs seen : List String), (firstOccurrencesAux seen xs).Nodup := by
  intro xs
  induction xs with
  | nil => intro seen; simp [firstOccurrencesAux]
  | cons y rest ih =>
    intro seen
    by_cases hy : y ∈ seen
    · rw [show firstOccurrencesAux seen (y :: rest) =
        firstOccurrencesAux seen rest from by simp [firstOccurrencesAux, hy]]
      exact ih seen
    · rw [show firstOccurrencesAux seen (y :: rest) =
        y :: firstOccurrencesAux (y :: seen) rest from by
          simp [firstOccurrencesAux, hy]]
      exact List.nodup_cons.mpr
        ⟨not_mem_firstOccurrencesAux rest (y :: seen) y (by simp), ih (y :: seen)⟩

/-- C1: in the Single-File strategy, over well-formed groupings (distinct,
non-empty Layer names; globally distinct, non-empty Stack names), the
generated markdown is the concatenation of its render events, the Layer
header flag is set exactly at each Layer's first encounter in traversal
order, the Stack header flag exactly at each Stack's first encounter, the
blank-line separator appears precisely when a Stack header starts without a
Layer header, and the headers actually emitted are the distinct Layers and
Stacks, each exactly once, in traversal order. -/
theorem c1_single_file_header_dedup
    (sbl lbs : List (String × List String))
    (hLnd : (sbl.map (fun p => p.1)).Nodup)
    (hLne : ∀ l ∈ sbl.map (fun p => p.1), l ≠ "")
    (hSnd : ((sbl.map (fun p => p.2)).flatten).Nodup)
    (hSne : ∀ s ∈ (sbl.map (fun p => p.2)).flatten, s ≠ "") :
    SingleFileRulesStrategy.generateLibraryMarkdown sbl lbs =
      String.join ((singleFileEvents sbl lbs).map renderEventMarkdown) ∧
    (singleFileEvents sbl lbs).map (fun e => e.includeLayerHeader) =
      specFlags ((singleFileEvents sbl lbs).map (fun e => e.layer)) ∧
    (singleFileEvents sbl lbs).map (fun e => e.includeStackHeader) =
      specFlags ((singleFileEvents sbl lbs).map (fun e => e.stack)) ∧
    (∀ (i : Nat) (e : RenderEvent), (singleFileEvents sbl lbs)[i]? = some e →
      (e.includeLayerHeader = true ↔
        ¬ e.layer ∈ ((singleFileEvents sbl lbs).take i).map (fun x => x.layer))) ∧
    (∀ (i : Nat) (e : RenderEvent), (singleFileEvents sbl lbs)[i]? = some e →
      (e.includeStackHeader = true ↔
        ¬ e.stack ∈ ((singleFileEvents sbl lbs).take i).map (fun x => x.stack))) ∧
    (∀ e ∈ singleFileEvents sbl lbs,
      e.blankBefore = (e.includeStackHeader && !e.includeLayerHeader)) ∧
    ((singleFileEvents sbl lbs).filter (fun e => e.includeLayerHeader)).map
        (fun e => e.layer) =
      firstOccurrences ((singleFileEvents sbl lbs).map (fun e => e.layer)) ∧
    (((singleFileEvents sbl lbs).filter (fun e => e.includeLayerHeader)).map
        (fun e => e.layer)).Nodup ∧
    ((singleFileEvents sbl lbs).filter (fun e => e.includeStackHeader)).map
        (fun e => e.stack) =
      firstOccurrences ((singleFileEvents sbl lbs).map (fun e => e.stack)) ∧
    (((singleFileEvents sbl lbs).filter (fun e => e.includeStackHeader)).map
        (fun e => e.stack)).Nodup := by
  have hlayers : (singleFileEvents sbl lbs).map (fun e => e.layer) =
      (iterateLayersStacksLibraries sbl lbs).map (fun t => t.1) :=
    renderEventsAux_map_layer _ "" ""
  have hstacks : (singleFileEvents sbl lbs).map (fun e => e.stack) =
      (iterateLayersStacksLibraries sbl lbs).map (fun t => t.2.1) :=
    renderEventsAux_map_stack _ "" ""
  have htagsL : ((layerBlocks sbl lbs).map (fun p => p.1)).Nodup := by
    rw [layerBlocks_tags]; exact hLnd
  have htagsLne : ∀ a ∈ (layerBlocks sbl lbs).map (fun p => p.1), a ≠ "" := by
    rw [layerBlocks_tags]; exact hLne
  have htagsS : ((stackBlocks sbl lbs).map (fun p => p.1)).Nodup := by
    rw [stackBlocks_tags]; exact hSnd
  have htagsSne : ∀ a ∈ (stackBlocks sbl lbs).map (fun p => p.1), a ≠ "" := by
    rw [stackBlocks_tags]; exact hSne
  have h2 : (singleFileEvents sbl lbs).map (fun e => e.includeLayerHeader) =
      specFlags ((singleFileEvents sbl lbs).map (fun e => e.layer)) := by
    rw [hlayers, map_layer_iterate]
    have hstep : (singleFileEvents sbl lbs).map (fun e => e.includeLayerHeader) =
        dedupFlags "" ((iterateLayersStacksLibraries sbl lbs).map (fun t => t.1)) :=
      renderEventsAux_map_layerFlag _ "" ""
    rw [hstep, map_layer_iterate]
    exact dedupFlags_eq_specFlagsAux _ "" [] htagsL (by simp) htagsLne
  have h3 : (singleFileEvents sbl lbs).map (fun e => e.includeStackHeader) =
      specFlags ((singleFileEvents sbl lbs).map (fun e => e.stack)) := by
    rw [hstacks, map_stack_iterate]
    have hstep : (singleFileEvents sbl lbs).map (fun e => e.includeStackHeader) =
        dedupFlags "" ((iterateLayersStacksLibraries sbl lbs).map (fun t => t.2.1)) :=
      renderEventsAux_map_stackFlag _ "" ""
    rw [hstep, map_stack_iterate]
    exact dedupFlags_eq_specFlagsAux _ "" [] htagsS (by simp) htagsSne
  have h1 : SingleFileRulesStrategy.generateLibraryMarkdown sbl lbs =
      String.join ((singleFileEvents sbl lbs).map renderEventMarkdown) := by
    show generateLibraryMarkdownAux "" "" ""
        (iterateLayersStacksLibraries sbl lbs) = _
    rw [generateLibraryMarkdownAux_eq]
    simp [singleFileEvents]
  have h4 : ∀ (i : Nat) (e : RenderEvent),
      (singleFileEvents sbl lbs)[i]? = some e →
      (e.includeLayerHeader = true ↔
        ¬ e.layer ∈ ((singleFileEvents sbl lbs).take i).map (fun x => x.layer)) := by
    intro i e he
    have hb : ((singleFileEvents sbl lbs).map
        (fun e => e.includeLayerHeader))[i]? = some e.includeLayerHeader := by
      rw [List.getElem?_map, he]; rfl
    rw [h2] at hb
    simp only [specFlags] at hb
    have hx : ((singleFileEvents sbl lbs).map (fun e => e.layer))[i]? =
        some e.layer := by
      rw [List.getElem?_map, he]; rfl
    have hiff := specFlagsAux_getElem?
      ((singleFileEvents sbl lbs).map (fun e => e.layer)) [] i
      e.includeLayerHeader e.layer hb hx
    rw [hiff]
    simp [List.map_take]
  have h5 : ∀ (i : Nat) (e : RenderEvent),
      (singleFileEvents sbl lbs)[i]? = some e →
      (e.includeStackHeader = true ↔
        ¬ e.stack ∈ ((singleFileEvents sbl lbs).take i).map (fun x => x.stack)) := by
    intro i e he
    have hb : ((singleFileEvents sbl lbs).map
        (fun e => e.includeStackHeader))[i]? = some e.includeStackHeader := by
      rw [List.getElem?_map, he]; rfl
    rw [h3] at hb
    simp only [specFlags] at hb
    have hx : ((singleFileEvents sbl lbs).map (fun e => e.stack))[i]? =
        some e.stack := by
      rw [List.getElem?_map, he]; rfl
    have hiff := specFlagsAux_getElem?
      ((singleFileEvents sbl lbs).map (fun e => e.stack)) [] i
      e.includeStackHeader e.stack hb hx
    rw [hiff]
    simp [List.map_take]
  have h6 : ∀ e ∈ singleFileEvents sbl lbs,
      e.blankBefore = (e.includeStackHeader && !e.includeLayerHeader) := by
    refine blankBefore_spec (iterateLayersStacksLibraries sbl lbs) "" "" ?_
      (Or.inr rfl)
    intro t ht
    have hm := mem_iterate_proj sbl lbs t ht
    exact ⟨hLne t.1 hm.1, hSne t.2.1 hm.2⟩
  have h7 : ((singleFileEvents sbl lbs).filter
      (fun e => e.includeLayerHeader)).map (fun e => e.layer) =
      firstOccurrences ((singleFileEvents sbl lbs).map (fun e => e.layer)) :=
    filter_map_firstOccurrences (fun e => e.layer)
      (fun e => e.includeLayerHeader) (singleFileEvents sbl lbs) [] h2
  have h8 : (((singleFileEvents sbl lbs).filter
      (fun e => e.includeLayerHeader)).map (fun e => e.layer)).Nodup := by
    rw [h7]
    exact nodup_firstOccurrencesAux _ []
  have h9 : ((singleFileEvents sbl lbs).filter
      (fun e => e.includeStackHeader)).map (fun e => e.stack) =
      firstOccurrences ((singleFileEvents sbl lbs).map (fun e => e.stack)) :=
    filter_map_firstOccurrences (fun e => e.stack)
      (fun e => e.includeStackHeader) (singleFileEvents sbl lbs) [] h3
  have h10 : (((singleFileEvents sbl lbs).filter
      (fun e => e.includeStackHeader)).map (fun e => e.stack)).Nodup := by
    rw [h9]
    exact nodup_firstOccurrencesAux _ []
  exact ⟨h1, h2, h3, h4, h5, h6, h7, h8, h9, h10⟩

/-- Witness for C1 at the spec's §8 example groupings. -/
theorem c1_single_file_header_dedup_witness :
    ((exampleStacksByLayer.map (fun p => p.1)).Nodup ∧
    (∀ l ∈ exampleStacksByLayer.map (fun p => p.1), l ≠ "") ∧
    ((exampleStacksByLayer.map (fun p => p.2)).flatten).Nodup ∧
    (∀ s ∈ (exampleStacksByLayer.map (fun p => p.2)).flatten, s ≠ "")) ∧
    (SingleFileRulesStrategy.generateLibraryMarkdown exampleStacksByLayer
        exampleLibrariesByStack =
      String.join ((singleFileEvents exampleStacksByLayer
        exampleLibrariesByStack).map renderEventMarkdown) ∧
    (singleFileEvents exampleStacksByLayer exampleLibrariesByStack).map
        (fun e => e.includeLayerHeader) =
      specFlags ((singleFileEvents exampleStacksByLayer
        exampleLibrariesByStack).map (fun e => e.layer)) ∧
    (singleFileEvents exampleStacksByLayer exampleLibrariesByStack).map
        (fun e => e.includeStackHeader) =
      specFlags ((singleFileEvents exampleStacksByLayer
        exampleLibrariesByStack).map (fun e => e.stack)) ∧
    (∀ (i : Nat) (e : RenderEvent),
      (singleFileEvents exampleStacksByLayer exampleLibrariesByStack)[i]? =
        some e →
      (e.includeLayerHeader = true ↔
        ¬ e.layer ∈ ((singleFileEvents exampleStacksByLayer
          exampleLibrariesByStack).take i).map (fun x => x.layer))) ∧
    (∀ (i : Nat) (e : RenderEvent),
      (singleFileEvents exampleStacksByLayer exampleLibrariesByStack)[i]? =
        some e →
      (e.includeStackHeader = true ↔
        ¬ e.stack ∈ ((singleFileEvents exampleStacksByLayer
          exampleLibrariesByStack).take i).map (fun x => x.stack))) ∧
    (∀ e ∈ singleFileEvents exampleStacksByLayer exampleLibrariesByStack,
      e.blankBefore = (e.includeStackHeader && !e.includeLayerHeader)) ∧
    ((singleFileEvents exampleStacksByLayer
        exampleLibrariesByStack).filter (fun e => e.includeLayerHeader)).map
        (fun e => e.layer) =
      firstOccurrences ((singleFileEvents exampleStacksByLayer
        exampleLibrariesByStack).map (fun e => e.layer)) ∧
    (((singleFileEvents exampleStacksByLayer
        exampleLibrariesByStack).filter (fun e => e.includeLayerHeader)).map
        (fun e => e.layer)).Nodup ∧
    ((singleFileEvents exampleStacksByLayer
        exampleLibrariesByStack).filter (fun e => e.includeStackHeader)).map
        (fun e => e.stack) =
      firstOccurrences ((singleFileEvents exampleStacksByLayer
        exampleLibrariesByStack).map (fun e => e.stack)) ∧
    (((singleFileEvents exampleStacksByLayer
        exampleLibrariesByStack).filter (fun e => e.includeStackHeader)).map
        (fun e => e.stack)).Nodup) :=
  ⟨⟨by decide, by decide, by decide, by decide⟩,
    c1_single_file_header_dedup exampleStacksByLayer exampleLibrariesByStack
      (by decide) (by decide) (by decide) (by decide)⟩
